import Mathlib

/-!
Shallow embedding of the `LiquidBot` treasury bot (`src/bot.ts`, served by
`src/server.ts`).  Amounts the source holds in JS numbers (SOL) are modelled
as `ℚ`; lamport balances read from the chain are `ℕ`.  Every network call is
an oracle input: the `CycleOracle` record carries, for one invocation of
`runCycle`, the outcome of each external call the source makes, and the
embedded functions replay the source's control flow (including its
`try`/`catch` structure) over those outcomes.  A helper that `throw`s in the
source is modelled by a `threw : Bool` field; a `catch` that only logs is
modelled by ignoring that flag.
-/

namespace LiquidProtocol

/-- The three values of `checkTokenPhase` in the source:
`'bonding_curve' | 'pumpswap' | 'unknown'`. -/
inductive Phase where
  | bonding_curve
  | pumpswap
  | unknown
deriving DecidableEq

/-- The slice of the on-chain bonding-curve account the source inspects
(`bondingCurve.complete`). -/
structure CurveState where
  complete : Bool
deriving DecidableEq

/-- `BotConfig` fields the core logic reads (connection/key fields are
consumed only by the external SDK objects and are omitted). -/
structure BotConfig where
  tokenMint : String
  minFeeThreshold : ℚ
  buybackPercentage : ℤ
  checkInterval : ℤ
deriving DecidableEq

/-- The mutable fields of the bot: the `BotStatus` ledger plus the private
`isRunning` / `intervalId` / `pumpSwapPool` fields.  `pumpSwapPool : Bool`
models `pumpSwapPool : PublicKey | null`: the canonical pool address is a
deterministic function of the (fixed) mint, so only presence matters.
`lastCheckSet` models `lastCheck : Date | null` being non-null, and
`intervalSet` models `intervalId` being non-null. -/
structure BotState where
  isRunning : Bool
  tokenMint : String
  currentPhase : Phase
  totalFeesCollected : ℚ
  totalBuybacks : ℚ
  totalSolHeld : ℚ
  tokensHeld : ℚ
  lastCheckSet : Bool
  pumpSwapPool : Bool
  intervalSet : Bool
deriving DecidableEq

/-- Severity levels of `LogEntry` in the source. -/
inductive LogLevel where
  | info
  | success
  | warning
  | error
deriving DecidableEq

/-- One tag per distinct `this.log(...)` call site in the cycle path of the
source, identifying the message emitted there. -/
inductive Msg where
  | cycleStart
  | phaseUndetermined
  | poolDetected
  | poolDetectFailed
  | phaseReport
  | feeBalanceReadFailed
  | feeBalanceReport
  | aboveThreshold
  | belowThreshold
  | noClaimInstructions
  | feesClaimed
  | claimFailed
  | buybackAmountReport
  | holdAmountReport
  | curveBuybackDone
  | curveBuybackFailed
  | ammPoolMissingForLp
  | ammNoPoolForBuyback
  | ammAvailableForLp
  | ammBuying
  | ammBuybackDone
  | ammBuybackFailed
  | addingLiquidity
  | liquidityAdded
  | addLiquidityFailed
  | noPoolForLiquidity
  | cycleError
deriving DecidableEq

/-- A log event: severity plus call-site tag. -/
abbrev LogLine := LogLevel × Msg

/-- An on-chain transaction the cycle actually submitted (a
`sendAndConfirmTransaction` call site being reached), with the amount it was
sized to and whether it confirmed. -/
inductive Action where
  | claim (ok : Bool)
  | buyCurve (sol : ℚ) (ok : Bool)
  | buyAmm (sol : ℚ) (ok : Bool)
  | deposit (sol : ℚ) (ok : Bool)
deriving DecidableEq

/-- The three ways `claimFees` can finish in the source: the transaction
confirmed, the SDK produced no instructions (early return, no transaction),
or something threw (the error is logged and re-thrown). -/
inductive ClaimOutcome where
  | claimed
  | noInstructions
  | failed
deriving DecidableEq

/-- Outcomes of every external call one `runCycle` invocation makes.
`none` for `probe` / `poolLookup` / `feeBalance` / `tokenBalance` means the
corresponding `await` threw (for `tokenBalance`, also "account missing"). -/
structure CycleOracle where
  probe : Option CurveState
  poolLookup : Option Bool
  feeBalance : Option Nat
  claimOutcome : ClaimOutcome
  buyCurveOk : Bool
  buyAmmOk : Bool
  depositOk : Bool
  tokenBalance : Option ℚ
deriving DecidableEq

/-- `feeBalance.toNumber() / 1e9`. -/
def lamportsToSol (n : Nat) : ℚ := (n : ℚ) / 1000000000

/-- `const buybackAmount = (feeBalanceSOL * this.config.buybackPercentage) / 100;` -/
def buybackAmountOf (cfg : BotConfig) (feeBalanceSOL : ℚ) : ℚ :=
  feeBalanceSOL * (cfg.buybackPercentage : ℚ) / 100

/-- `const holdAmount = feeBalanceSOL - buybackAmount;` -/
def holdAmountOf (cfg : BotConfig) (feeBalanceSOL : ℚ) : ℚ :=
  feeBalanceSOL - buybackAmountOf cfg feeBalanceSOL

/-- Result of `detectPumpSwapPool`: the possibly-updated pool cache and the
logs it emitted. -/
structure PoolDetect where
  pool : Bool
  logs : List LogLine
deriving DecidableEq

/-- `detectPumpSwapPool()`: derives the canonical pool PDA and checks the
account.  `lookup = some true`: account exists, cache the pool and log
success; `some false`: account absent, leave the cache as is (no log);
`none`: the derivation/`getAccountInfo` threw, caught with a warning. -/
def detectPumpSwapPool (pool : Bool) (lookup : Option Bool) : PoolDetect :=
  match lookup with
  | some true => { pool := true, logs := [(LogLevel.success, Msg.poolDetected)] }
  | some false => { pool := pool, logs := [] }
  | none => { pool := pool, logs := [(LogLevel.warning, Msg.poolDetectFailed)] }

/-- Result of `checkTokenPhase`: the reported phase, the updated pool cache
and the logs emitted along the way. -/
structure PhaseCheck where
  phase : Phase
  pool : Bool
  logs : List LogLine
deriving DecidableEq

/-- `checkTokenPhase()`: fetch the bonding curve; if it reports `complete`,
run pool detection and return `pumpswap` (unconditionally); if not complete,
return `bonding_curve`; if the fetch threw, warn, run pool detection and
return `pumpswap` when a pool is cached, else `unknown`. -/
def checkTokenPhase (pool : Bool) (probe : Option CurveState) (lookup : Option Bool) :
    PhaseCheck :=
  match probe with
  | some bc =>
    if bc.complete then
      let d := detectPumpSwapPool pool lookup
      { phase := Phase.pumpswap, pool := d.pool, logs := d.logs }
    else
      { phase := Phase.bonding_curve, pool := pool, logs := [] }
  | none =>
    let d := detectPumpSwapPool pool lookup
    if d.pool then
      { phase := Phase.pumpswap, pool := d.pool,
        logs := (LogLevel.warning, Msg.phaseUndetermined) :: d.logs }
    else
      { phase := Phase.unknown, pool := d.pool,
        logs := (LogLevel.warning, Msg.phaseUndetermined) :: d.logs }

/-- Result of `getCreatorFeeBalance`: the lamport balance used by the cycle
and the logs emitted.  A throwing read is caught and replaced by `BN(0)`
with an error log. -/
structure FeeRead where
  balance : Nat
  logs : List LogLine
deriving DecidableEq

/-- `getCreatorFeeBalance()`. -/
def getCreatorFeeBalance (r : Option Nat) : FeeRead :=
  match r with
  | some n => { balance := n, logs := [] }
  | none => { balance := 0, logs := [(LogLevel.error, Msg.feeBalanceReadFailed)] }

/-- Result of a helper wrapping a transaction submission: its logs, the
submitted transactions, and whether the helper re-threw (propagating to
`runCycle`'s catch). -/
structure TxAttempt where
  logs : List LogLine
  actions : List Action
  threw : Bool
deriving DecidableEq

/-- `claimFees()`: zero instructions → warn and return; confirmed → success
log; otherwise the error is logged and re-thrown. -/
def claimFees : ClaimOutcome → TxAttempt
  | ClaimOutcome.noInstructions =>
    { logs := [(LogLevel.warning, Msg.noClaimInstructions)], actions := [], threw := false }
  | ClaimOutcome.claimed =>
    { logs := [(LogLevel.success, Msg.feesClaimed)], actions := [Action.claim true],
      threw := false }
  | ClaimOutcome.failed =>
    { logs := [(LogLevel.error, Msg.claimFailed)], actions := [Action.claim false],
      threw := true }

/-- `buybackOnBondingCurve(solAmount)`: logs success on confirmation;
any failure inside the `try` is logged and re-thrown. -/
def buybackOnBondingCurve (sol : ℚ) (ok : Bool) : TxAttempt :=
  if ok then
    { logs := [(LogLevel.success, Msg.curveBuybackDone)],
      actions := [Action.buyCurve sol true], threw := false }
  else
    { logs := [(LogLevel.error, Msg.curveBuybackFailed)],
      actions := [Action.buyCurve sol false], threw := true }

/-- `buybackOnPumpSwap(solAmount)`: early-returns with a warning when no
pool is cached; any failure inside the `try` is caught and only logged
(never re-thrown). -/
def buybackOnPumpSwap (pool : Bool) (sol : ℚ) (ok : Bool) : TxAttempt :=
  if !pool then
    { logs := [(LogLevel.warning, Msg.ammNoPoolForBuyback)], actions := [], threw := false }
  else if ok then
    { logs := [(LogLevel.info, Msg.ammBuying), (LogLevel.success, Msg.ammBuybackDone)],
      actions := [Action.buyAmm sol true], threw := false }
  else
    { logs := [(LogLevel.error, Msg.ammBuybackFailed)],
      actions := [Action.buyAmm sol false], threw := false }

/-- `addLiquidityToPumpSwap(solAmount)`: early-returns with a warning when
no pool is cached; any failure inside the `try` is caught and only logged
(never re-thrown). -/
def addLiquidityToPumpSwap (pool : Bool) (sol : ℚ) (ok : Bool) : TxAttempt :=
  if !pool then
    { logs := [(LogLevel.warning, Msg.noPoolForLiquidity)], actions := [], threw := false }
  else if ok then
    { logs := [(LogLevel.info, Msg.addingLiquidity), (LogLevel.success, Msg.liquidityAdded)],
      actions := [Action.deposit sol true], threw := false }
  else
    { logs := [(LogLevel.error, Msg.addLiquidityFailed)],
      actions := [Action.deposit sol false], threw := false }

/-- Result of `handlePumpSwapPhase`: updated state, logs, submitted
transactions.  The handler never throws. -/
structure HandleResult where
  state : BotState
  logs : List LogLine
  actions : List Action
deriving DecidableEq

/-- `handlePumpSwapPhase(buybackAmount, holdAmount)`.  Without a cached pool:
warn, best-effort AMM buyback, then `totalBuybacks += buybackAmount` and
`totalSolHeld += holdAmount`.  With a cached pool: buyback, then
`totalBuybacks += buybackAmount`, then attempt to deposit
`totalSolHeld + holdAmount` and set `totalSolHeld = 0` regardless of the
deposit outcome (the deposit helper swallows its own failures). -/
def handlePumpSwapPhase (st : BotState) (buybackAmount holdAmount : ℚ)
    (buyAmmOk depositOk : Bool) : HandleResult :=
  if !st.pumpSwapPool then
    let b := buybackOnPumpSwap st.pumpSwapPool buybackAmount buyAmmOk
    { state := { st with totalBuybacks := st.totalBuybacks + buybackAmount,
                         totalSolHeld := st.totalSolHeld + holdAmount },
      logs := (LogLevel.warning, Msg.ammPoolMissingForLp) :: b.logs,
      actions := b.actions }
  else
    let totalSolAvailable := st.totalSolHeld + holdAmount
    let b := buybackOnPumpSwap st.pumpSwapPool buybackAmount buyAmmOk
    let l := addLiquidityToPumpSwap st.pumpSwapPool totalSolAvailable depositOk
    { state := { st with totalBuybacks := st.totalBuybacks + buybackAmount,
                         totalSolHeld := 0 },
      logs := (LogLevel.info, Msg.ammAvailableForLp) :: (b.logs ++ l.logs),
      actions := b.actions ++ l.actions }

/-- `updateTokenBalance()`: a missing token account (or a throwing read)
reads as zero. -/
def updateTokenBalance (st : BotState) (r : Option ℚ) : BotState :=
  { st with tokensHeld := r.getD 0 }

/-- Everything one `runCycle` invocation produced: the post-cycle state, the
log events in emission order, the transactions submitted, and whether
`emit('statusUpdate', ...)` was reached (it is skipped when the cycle's
`catch` fires). -/
structure CycleOutput where
  state : BotState
  logs : List LogLine
  actions : List Action
  statusPublished : Bool
deriving DecidableEq

/-- The tail of a cycle that did not throw: `updateTokenBalance()` then
`emit('statusUpdate', this.status)`. -/
def finishCycle (st : BotState) (logs : List LogLine) (acts : List Action)
    (tokenBalance : Option ℚ) : CycleOutput :=
  { state := updateTokenBalance st tokenBalance, logs := logs, actions := acts,
    statusPublished := true }

/-- `runCycle()`: one pass of the reconciliation loop over the oracle's
outcomes, replaying the source's control flow; a throw from `claimFees` or
`buybackOnBondingCurve` lands in the cycle-level `catch`, which logs a cycle
error and ends the cycle (skipping the balance refresh and status emit). -/
def runCycle (cfg : BotConfig) (st : BotState) (o : CycleOracle) : CycleOutput :=
  let pc := checkTokenPhase st.pumpSwapPool o.probe o.poolLookup
  let st1 := { st with lastCheckSet := true, currentPhase := pc.phase,
                       pumpSwapPool := pc.pool }
  let fr := getCreatorFeeBalance o.feeBalance
  let feeBalanceSOL := lamportsToSol fr.balance
  let logs1 := (LogLevel.info, Msg.cycleStart) :: pc.logs
      ++ [(LogLevel.info, Msg.phaseReport)] ++ fr.logs
      ++ [(LogLevel.info, Msg.feeBalanceReport)]
  if cfg.minFeeThreshold ≤ feeBalanceSOL then
    let logs2 := logs1 ++ [(LogLevel.success, Msg.aboveThreshold)]
    let c := claimFees o.claimOutcome
    if c.threw then
      { state := st1, logs := logs2 ++ c.logs ++ [(LogLevel.error, Msg.cycleError)],
        actions := c.actions, statusPublished := false }
    else
      let st2 := { st1 with totalFeesCollected := st1.totalFeesCollected + feeBalanceSOL }
      let buybackAmount := buybackAmountOf cfg feeBalanceSOL
      let holdAmount := holdAmountOf cfg feeBalanceSOL
      let logs3 := logs2 ++ c.logs
          ++ [(LogLevel.info, Msg.buybackAmountReport), (LogLevel.info, Msg.holdAmountReport)]
      match pc.phase with
      | Phase.bonding_curve =>
        let b := buybackOnBondingCurve buybackAmount o.buyCurveOk
        if b.threw then
          { state := st2, logs := logs3 ++ b.logs ++ [(LogLevel.error, Msg.cycleError)],
            actions := c.actions ++ b.actions, statusPublished := false }
        else
          finishCycle
            { st2 with totalBuybacks := st2.totalBuybacks + buybackAmount,
                       totalSolHeld := st2.totalSolHeld + holdAmount }
            (logs3 ++ b.logs) (c.actions ++ b.actions) o.tokenBalance
      | Phase.pumpswap =>
        let h := handlePumpSwapPhase st2 buybackAmount holdAmount o.buyAmmOk o.depositOk
        finishCycle h.state (logs3 ++ h.logs) (c.actions ++ h.actions) o.tokenBalance
      | Phase.unknown =>
        finishCycle st2 logs3 c.actions o.tokenBalance
  else
    finishCycle st1 (logs1 ++ [(LogLevel.info, Msg.belowThreshold)]) [] o.tokenBalance

/-- The `LiquidBot` constructor's effect on the modelled state: every ledger
field starts at zero, phase `unknown`, no pool cached, not running.  Note it
performs no validation of `cfg` (in particular none of
`buybackPercentage ∈ [0, 100]`). -/
def LiquidBot.mkState (cfg : BotConfig) : BotState :=
  { isRunning := false, tokenMint := cfg.tokenMint, currentPhase := Phase.unknown,
    totalFeesCollected := 0, totalBuybacks := 0, totalSolHeld := 0, tokensHeld := 0,
    lastCheckSet := false, pumpSwapPool := false, intervalSet := false }

/-- Iterating `runCycle` over a list of per-cycle oracle outcomes. -/
def runCycles (cfg : BotConfig) (st : BotState) (os : List CycleOracle) : BotState :=
  os.foldl (fun s o => (runCycle cfg s o).state) st

/-- The SOL value of the fee balance the cycle reads (what the source calls
`feeBalanceSOL`, the harvested amount when a claim happens). -/
def harvestedSOL (o : CycleOracle) : ℚ :=
  lamportsToSol (getCreatorFeeBalance o.feeBalance).balance

/-- The phase one cycle from state `st` will report. -/
def cyclePhase (st : BotState) (o : CycleOracle) : Phase :=
  (checkTokenPhase st.pumpSwapPool o.probe o.poolLookup).phase

/-- The pool cache after phase detection in one cycle from state `st`. -/
def cyclePool (st : BotState) (o : CycleOracle) : Bool :=
  (checkTokenPhase st.pumpSwapPool o.probe o.poolLookup).pool

/-- Whether the cycle claims: balance at/above threshold and `claimFees` did
not throw (both a confirmed claim and the no-instructions early return leave
`runCycle` on its success path). -/
def claimHappened (cfg : BotConfig) (o : CycleOracle) : Prop :=
  cfg.minFeeThreshold ≤ harvestedSOL o ∧ o.claimOutcome ≠ ClaimOutcome.failed

instance (cfg : BotConfig) (o : CycleOracle) : Decidable (claimHappened cfg o) :=
  inferInstanceAs (Decidable (And _ _))

/-- Does an action touch a buy or a deposit? -/
def Action.isBuyOrDeposit : Action → Bool
  | Action.claim _ => false
  | Action.buyCurve _ _ => true
  | Action.buyAmm _ _ => true
  | Action.deposit _ _ => true

/-- Does an action deposit liquidity? -/
def Action.isDeposit : Action → Bool
  | Action.deposit _ _ => true
  | _ => false

/-- Whether a cycle submitted (or attempted) a liquidity deposit. -/
def depositAttempted (out : CycleOutput) : Bool :=
  out.actions.any Action.isDeposit

/-! ### Characterizations of one cycle

`cycleStep`, `phaseActions`/`cycleActions` and `cyclePublished` restate what
`runCycle` does to the state, which transactions it submits, and whether it
reaches the status emit, in a form the theorems below can reason about; the
`runCycle_state` / `runCycle_actions` / `runCycle_published` lemmas prove
them equal to the embedded code on all inputs. -/

/-- Explicit description of the state after one cycle. -/
def cycleStep (cfg : BotConfig) (st : BotState) (o : CycleOracle) : BotState :=
  let A := harvestedSOL o
  let st1 := { st with lastCheckSet := true, currentPhase := cyclePhase st o,
                       pumpSwapPool := cyclePool st o }
  if cfg.minFeeThreshold ≤ A then
    if o.claimOutcome = ClaimOutcome.failed then st1
    else
      let st2 := { st1 with totalFeesCollected := st1.totalFeesCollected + A }
      match cyclePhase st o with
      | Phase.bonding_curve =>
        if o.buyCurveOk then
          { st2 with totalBuybacks := st2.totalBuybacks + buybackAmountOf cfg A,
                     totalSolHeld := st2.totalSolHeld + holdAmountOf cfg A,
                     tokensHeld := o.tokenBalance.getD 0 }
        else st2
      | Phase.pumpswap =>
        if cyclePool st o then
          { st2 with totalBuybacks := st2.totalBuybacks + buybackAmountOf cfg A,
                     totalSolHeld := 0, tokensHeld := o.tokenBalance.getD 0 }
        else
          { st2 with totalBuybacks := st2.totalBuybacks + buybackAmountOf cfg A,
                     totalSolHeld := st2.totalSolHeld + holdAmountOf cfg A,
                     tokensHeld := o.tokenBalance.getD 0 }
      | Phase.unknown => { st2 with tokensHeld := o.tokenBalance.getD 0 }
  else { st1 with tokensHeld := o.tokenBalance.getD 0 }

/-- The transactions the phase-specific part of a cycle submits. -/
def phaseActions (cfg : BotConfig) (st : BotState) (o : CycleOracle) : List Action :=
  let A := harvestedSOL o
  match cyclePhase st o with
  | Phase.bonding_curve => [Action.buyCurve (buybackAmountOf cfg A) o.buyCurveOk]
  | Phase.pumpswap =>
    if cyclePool st o then
      [Action.buyAmm (buybackAmountOf cfg A) o.buyAmmOk,
       Action.deposit (st.totalSolHeld + holdAmountOf cfg A) o.depositOk]
    else []
  | Phase.unknown => []

/-- The transactions one cycle submits. -/
def cycleActions (cfg : BotConfig) (st : BotState) (o : CycleOracle) : List Action :=
  if cfg.minFeeThreshold ≤ harvestedSOL o then
    match o.claimOutcome with
    | ClaimOutcome.failed => [Action.claim false]
    | ClaimOutcome.noInstructions => phaseActions cfg st o
    | ClaimOutcome.claimed => Action.claim true :: phaseActions cfg st o
  else []

/-- Whether one cycle reaches the final status emit. -/
def cyclePublished (cfg : BotConfig) (st : BotState) (o : CycleOracle) : Bool :=
  if cfg.minFeeThreshold ≤ harvestedSOL o then
    if o.claimOutcome = ClaimOutcome.failed then false
    else
      match cyclePhase st o with
      | Phase.bonding_curve => o.buyCurveOk
      | Phase.pumpswap => true
      | Phase.unknown => true
  else true

set_option maxHeartbeats 2000000 in
lemma runCycle_state (cfg : BotConfig) (st : BotState) (o : CycleOracle) :
    (runCycle cfg st o).state = cycleStep cfg st o := by
  rcases o with ⟨probe, lookup, fee, co, bcOk, baOk, dep, tb⟩
  rcases st with ⟨run, mint, ph, fees, buys, held, toks, lc, pool, iv⟩
  rcases probe with _ | ⟨_ | _⟩ <;> rcases lookup with _ | (_ | _) <;>
    cases pool <;> cases co <;> cases bcOk <;>
    simp only [runCycle, cycleStep, cyclePhase, cyclePool, checkTokenPhase,
      detectPumpSwapPool, claimFees, buybackOnBondingCurve, handlePumpSwapPhase,
      buybackOnPumpSwap, addLiquidityToPumpSwap, finishCycle, updateTokenBalance,
      harvestedSOL, getCreatorFeeBalance, Bool.not_true, Bool.not_false, if_true, if_false,
      Bool.true_eq_false, Bool.false_eq_true, reduceCtorEq, ite_true, ite_false] <;>
    (try split) <;>
    rfl

set_option maxHeartbeats 2000000 in
lemma runCycle_actions (cfg : BotConfig) (st : BotState) (o : CycleOracle) :
    (runCycle cfg st o).actions = cycleActions cfg st o := by
  rcases o with ⟨probe, lookup, fee, co, bcOk, baOk, dep, tb⟩
  rcases st with ⟨run, mint, ph, fees, buys, held, toks, lc, pool, iv⟩
  rcases probe with _ | ⟨_ | _⟩ <;> rcases lookup with _ | (_ | _) <;>
    cases pool <;> cases co <;> cases bcOk <;> cases baOk <;> cases dep <;>
    simp only [runCycle, cycleActions, phaseActions, cyclePhase, cyclePool, checkTokenPhase,
      detectPumpSwapPool, claimFees, buybackOnBondingCurve, handlePumpSwapPhase,
      buybackOnPumpSwap, addLiquidityToPumpSwap, finishCycle, updateTokenBalance,
      harvestedSOL, getCreatorFeeBalance, Bool.not_true, Bool.not_false, if_true, if_false,
      Bool.true_eq_false, Bool.false_eq_true, reduceCtorEq, ite_true, ite_false] <;>
    (try split) <;>
    rfl

set_option maxHeartbeats 2000000 in
lemma runCycle_published (cfg : BotConfig) (st : BotState) (o : CycleOracle) :
    (runCycle cfg st o).statusPublished = cyclePublished cfg st o := by
  rcases o with ⟨probe, lookup, fee, co, bcOk, baOk, dep, tb⟩
  rcases st with ⟨run, mint, ph, fees, buys, held, toks, lc, pool, iv⟩
  rcases probe with _ | ⟨_ | _⟩ <;> rcases lookup with _ | (_ | _) <;>
    cases pool <;> cases co <;> cases bcOk <;>
    simp only [runCycle, cyclePublished, cyclePhase, cyclePool, checkTokenPhase,
      detectPumpSwapPool, claimFees, buybackOnBondingCurve, handlePumpSwapPhase,
      buybackOnPumpSwap, addLiquidityToPumpSwap, finishCycle, updateTokenBalance,
      harvestedSOL, getCreatorFeeBalance, Bool.not_true, Bool.not_false, if_true, if_false,
      Bool.true_eq_false, Bool.false_eq_true, reduceCtorEq, ite_true, ite_false] <;>
    (try split) <;>
    rfl

end LiquidProtocol

namespace LiquidProtocol

def depositPathTaken (cfg : BotConfig) (st : BotState) (o : CycleOracle) : Prop :=
  claimHappened cfg o ∧ cyclePhase st o = Phase.pumpswap ∧ cyclePool st o = true

instance (cfg : BotConfig) (st : BotState) (o : CycleOracle) :
    Decidable (depositPathTaken cfg st o) :=
  inferInstanceAs (Decidable (And _ _))

def holdRecorded (cfg : BotConfig) (st : BotState) (o : CycleOracle) : Prop :=
  claimHappened cfg o ∧
    ((cyclePhase st o = Phase.bonding_curve ∧ o.buyCurveOk = true) ∨
     (cyclePhase st o = Phase.pumpswap ∧ cyclePool st o = false))

instance (cfg : BotConfig) (st : BotState) (o : CycleOracle) :
    Decidable (holdRecorded cfg st o) :=
  inferInstanceAs (Decidable (And _ _))

def buybackRecorded (cfg : BotConfig) (st : BotState) (o : CycleOracle) : Prop :=
  claimHappened cfg o ∧
    ((cyclePhase st o = Phase.bonding_curve ∧ o.buyCurveOk = true) ∨
     cyclePhase st o = Phase.pumpswap)

instance (cfg : BotConfig) (st : BotState) (o : CycleOracle) :
    Decidable (buybackRecorded cfg st o) :=
  inferInstanceAs (Decidable (And _ _))

lemma cycleStep_fees (cfg : BotConfig) (st : BotState) (o : CycleOracle) :
    (cycleStep cfg st o).totalFeesCollected =
      st.totalFeesCollected + (if claimHappened cfg o then harvestedSOL o else 0) := by
  unfold cycleStep
  by_cases h1 : cfg.minFeeThreshold ≤ harvestedSOL o
  case pos =>
    rw [if_pos h1]
    repeat' split
    all_goals simp_all [claimHappened]
  case neg =>
    rw [if_neg h1]
    simp [claimHappened, h1]

lemma cycleStep_buybacks (cfg : BotConfig) (st : BotState) (o : CycleOracle) :
    (cycleStep cfg st o).totalBuybacks =
      st.totalBuybacks +
        (if buybackRecorded cfg st o then buybackAmountOf cfg (harvestedSOL o) else 0) := by
  unfold cycleStep
  by_cases h1 : cfg.minFeeThreshold ≤ harvestedSOL o
  case pos =>
    rw [if_pos h1]
    repeat' split
    all_goals simp_all [buybackRecorded, claimHappened]
  case neg =>
    rw [if_neg h1]
    simp [buybackRecorded, claimHappened, h1]

lemma cycleStep_solHeld (cfg : BotConfig) (st : BotState) (o : CycleOracle) :
    (cycleStep cfg st o).totalSolHeld =
      if depositPathTaken cfg st o then 0
      else st.totalSolHeld +
        (if holdRecorded cfg st o then holdAmountOf cfg (harvestedSOL o) else 0) := by
  unfold cycleStep
  by_cases h1 : cfg.minFeeThreshold ≤ harvestedSOL o
  case pos =>
    rw [if_pos h1]
    repeat' split
    all_goals simp_all [depositPathTaken, holdRecorded, claimHappened]
  case neg =>
    rw [if_neg h1]
    simp [depositPathTaken, holdRecorded, claimHappened, h1]

lemma cycleStep_frame (cfg : BotConfig) (st : BotState) (o : CycleOracle) :
    (cycleStep cfg st o).isRunning = st.isRunning ∧
    (cycleStep cfg st o).intervalSet = st.intervalSet ∧
    (cycleStep cfg st o).tokenMint = st.tokenMint := by
  unfold cycleStep
  by_cases h1 : cfg.minFeeThreshold ≤ harvestedSOL o
  case pos =>
    rw [if_pos h1]
    repeat' split
    all_goals simp_all
  case neg =>
    rw [if_neg h1]
    try simp_all

lemma cycleStep_phase (cfg : BotConfig) (st : BotState) (o : CycleOracle) :
    (cycleStep cfg st o).currentPhase = cyclePhase st o := by
  unfold cycleStep
  by_cases h1 : cfg.minFeeThreshold ≤ harvestedSOL o
  case pos =>
    rw [if_pos h1]
    repeat' split
    all_goals simp_all
  case neg =>
    rw [if_neg h1]
    try simp_all

lemma cycleStep_pool (cfg : BotConfig) (st : BotState) (o : CycleOracle) :
    (cycleStep cfg st o).pumpSwapPool = cyclePool st o := by
  unfold cycleStep
  by_cases h1 : cfg.minFeeThreshold ≤ harvestedSOL o
  case pos =>
    rw [if_pos h1]
    repeat' split
    all_goals simp_all
  case neg =>
    rw [if_neg h1]
    try simp_all

lemma cyclePool_mono (st : BotState) (o : CycleOracle) (h : st.pumpSwapPool = true) :
    cyclePool st o = true := by
  unfold cyclePool checkTokenPhase detectPumpSwapPool
  rcases o with ⟨probe, lookup, fee, co, bcOk, baOk, dep, tb⟩
  rcases probe with _ | ⟨_ | _⟩ <;> rcases lookup with _ | (_ | _) <;> simp [h]

lemma harvestedSOL_nonneg (o : CycleOracle) : 0 ≤ harvestedSOL o := by
  unfold harvestedSOL lamportsToSol
  positivity

lemma buybackAmountOf_nonneg (cfg : BotConfig) (A : ℚ)
    (hp : 0 ≤ cfg.buybackPercentage) (hA : 0 ≤ A) : 0 ≤ buybackAmountOf cfg A := by
  unfold buybackAmountOf
  have hp' : (0:ℚ) ≤ (cfg.buybackPercentage : ℚ) := by exact_mod_cast hp
  positivity

lemma holdAmountOf_nonneg (cfg : BotConfig) (A : ℚ)
    (hp : cfg.buybackPercentage ≤ 100) (hA : 0 ≤ A) : 0 ≤ holdAmountOf cfg A := by
  have h : holdAmountOf cfg A = A * ((100 - (cfg.buybackPercentage : ℚ)) / 100) := by
    unfold holdAmountOf buybackAmountOf; ring
  rw [h]
  have hp' : (cfg.buybackPercentage : ℚ) ≤ 100 := by exact_mod_cast hp
  apply mul_nonneg hA
  apply div_nonneg (by linarith) (by norm_num)

end LiquidProtocol

namespace LiquidProtocol

lemma belowThreshold_logged (cfg : BotConfig) (st : BotState) (o : CycleOracle)
    (h : harvestedSOL o < cfg.minFeeThreshold) :
    (LogLevel.info, Msg.belowThreshold) ∈ (runCycle cfg st o).logs := by
  have h' : ¬ cfg.minFeeThreshold ≤ lamportsToSol (getCreatorFeeBalance o.feeBalance).balance := by
    unfold harvestedSOL at h
    exact not_le.mpr h
  simp only [runCycle]
  rw [if_neg h']
  simp [finishCycle]

lemma claimFailure_logged (cfg : BotConfig) (st : BotState) (o : CycleOracle)
    (h1 : cfg.minFeeThreshold ≤ harvestedSOL o) (h2 : o.claimOutcome = ClaimOutcome.failed) :
    (LogLevel.error, Msg.claimFailed) ∈ (runCycle cfg st o).logs ∧
    (LogLevel.error, Msg.cycleError) ∈ (runCycle cfg st o).logs := by
  have h1' : cfg.minFeeThreshold ≤ lamportsToSol (getCreatorFeeBalance o.feeBalance).balance := by
    unfold harvestedSOL at h1
    exact h1
  simp only [runCycle, h2, claimFees]
  rw [if_pos h1']
  simp

lemma runCycles_fees_mono (cfg : BotConfig) (st : BotState) (os : List CycleOracle) :
    st.totalFeesCollected ≤ (runCycles cfg st os).totalFeesCollected := by
  induction os generalizing st with
  | nil => simp [runCycles]
  | cons o os ih =>
    have step : st.totalFeesCollected ≤ (runCycle cfg st o).state.totalFeesCollected := by
      rw [runCycle_state, cycleStep_fees]
      have := harvestedSOL_nonneg o
      split <;> linarith
    calc st.totalFeesCollected ≤ (runCycle cfg st o).state.totalFeesCollected := step
      _ ≤ (runCycles cfg (runCycle cfg st o).state os).totalFeesCollected := ih _
      _ = (runCycles cfg st (o :: os)).totalFeesCollected := by simp [runCycles]

lemma runCycles_buybacks_mono (cfg : BotConfig) (hp : 0 ≤ cfg.buybackPercentage)
    (st : BotState) (os : List CycleOracle) :
    st.totalBuybacks ≤ (runCycles cfg st os).totalBuybacks := by
  induction os generalizing st with
  | nil => simp [runCycles]
  | cons o os ih =>
    have step : st.totalBuybacks ≤ (runCycle cfg st o).state.totalBuybacks := by
      rw [runCycle_state, cycleStep_buybacks]
      have h := buybackAmountOf_nonneg cfg (harvestedSOL o) hp (harvestedSOL_nonneg o)
      split <;> linarith
    calc st.totalBuybacks ≤ (runCycle cfg st o).state.totalBuybacks := step
      _ ≤ (runCycles cfg (runCycle cfg st o).state os).totalBuybacks := ih _
      _ = (runCycles cfg st (o :: os)).totalBuybacks := by simp [runCycles]

end LiquidProtocol

namespace LiquidProtocol

def c1Config : BotConfig :=
  { tokenMint := "MINT", minFeeThreshold := 15/1000, buybackPercentage := 50,
    checkInterval := 60000 }

def c1State : BotState :=
  { LiquidBot.mkState c1Config with pumpSwapPool := true, totalSolHeld := 5/100 }

def c1Oracle : CycleOracle :=
  { probe := some { complete := true }, poolLookup := some true, feeBalance := some 20000000,
    claimOutcome := ClaimOutcome.claimed, buyCurveOk := true, buyAmmOk := true,
    depositOk := false, tokenBalance := some 0 }

/-- Claim C1 (code bug): the source claims the held reserve is reset to zero
if and only if the liquidity deposit succeeded, a failed deposit leaving it
unchanged for retry.  In the code, `addLiquidityToPumpSwap` swallows its own
failure and `handlePumpSwapPhase` sets `totalSolHeld = 0` unconditionally
afterwards: here the deposit of 0.06 SOL fails, yet the reserve of 0.05 SOL
is zeroed instead of being left for retry. -/
theorem c1_failed_deposit_still_resets_reserve :
    Action.deposit (6/100) false ∈ (runCycle c1Config c1State c1Oracle).actions ∧
    c1State.totalSolHeld = 5/100 ∧
    (runCycle c1Config c1State c1Oracle).state.totalSolHeld = 0 := by
  have hpath : depositPathTaken c1Config c1State c1Oracle := by
    refine ⟨⟨?_, by simp [c1Oracle]⟩, ?_, ?_⟩
    · unfold harvestedSOL lamportsToSol getCreatorFeeBalance c1Config c1Oracle
      norm_num
    · simp [cyclePhase, checkTokenPhase, detectPumpSwapPool, c1State, c1Oracle,
        LiquidBot.mkState]
    · simp [cyclePool, checkTokenPhase, detectPumpSwapPool, c1State, c1Oracle,
        LiquidBot.mkState]
  refine ⟨?_, by norm_num [c1State, LiquidBot.mkState, c1Config], ?_⟩
  · rw [runCycle_actions]
    simp only [cycleActions, phaseActions, cyclePhase, cyclePool, checkTokenPhase,
      detectPumpSwapPool, claimHappened, harvestedSOL, getCreatorFeeBalance, lamportsToSol,
      buybackAmountOf, holdAmountOf, c1Config, c1State, c1Oracle, LiquidBot.mkState]
    norm_num
  · rw [runCycle_state, cycleStep_solHeld, if_pos hpath]

end LiquidProtocol

namespace LiquidProtocol

def c2Config : BotConfig :=
  { tokenMint := "MINT", minFeeThreshold := 15/1000, buybackPercentage := 50,
    checkInterval := 60000 }

def c2State : BotState := { LiquidBot.mkState c2Config with pumpSwapPool := true }

def c2Oracle : CycleOracle :=
  { probe := some { complete := true }, poolLookup := some true, feeBalance := some 20000000,
    claimOutcome := ClaimOutcome.claimed, buyCurveOk := true, buyAmmOk := false,
    depositOk := true, tokenBalance := some 0 }

def c2wOracle : CycleOracle := { c2Oracle with claimOutcome := ClaimOutcome.failed }

/-- Claim C2, counterexample: a failed on-chain action is never supposed to
mutate the ledger, but a failed AMM buyback of 0.01 SOL still adds 0.01 to
`totalBuybacks` (the buyback helper swallows its failure and the caller
records the spend unconditionally). -/
theorem c2_counterexample_failed_amm_buy_mutates_ledger :
    Action.buyAmm (1/100) false ∈ (runCycle c2Config c2State c2Oracle).actions ∧
    (runCycle c2Config c2State c2Oracle).state.totalBuybacks =
      c2State.totalBuybacks + 1/100 := by
  have hrec : buybackRecorded c2Config c2State c2Oracle := by
    refine ⟨⟨?_, by simp [c2Oracle]⟩, Or.inr ?_⟩
    · unfold harvestedSOL lamportsToSol getCreatorFeeBalance c2Config c2Oracle
      norm_num
    · simp [cyclePhase, checkTokenPhase, detectPumpSwapPool, c2State, c2Oracle,
        LiquidBot.mkState]
  constructor
  · rw [runCycle_actions]
    simp only [cycleActions, phaseActions, cyclePhase, cyclePool, checkTokenPhase,
      detectPumpSwapPool, claimHappened, harvestedSOL, getCreatorFeeBalance, lamportsToSol,
      buybackAmountOf, holdAmountOf, c2Config, c2State, c2Oracle, LiquidBot.mkState]
    norm_num
  · rw [runCycle_state, cycleStep_buybacks, if_pos hrec]
    unfold buybackAmountOf harvestedSOL lamportsToSol getCreatorFeeBalance c2Config c2Oracle
    norm_num

/-- Claim C2, amended: ledger mutations follow confirmation only on the
claim and bonding-curve paths.  A failed claim leaves every ledger field
unchanged; a failed bonding-curve buy leaves `totalBuybacks` and
`totalSolHeld` unchanged; without a successful claim `totalFeesCollected`
is unchanged; but in the pumpswap phase `totalBuybacks` is incremented by
the buyback amount regardless of the buy or deposit outcome. -/
theorem c2_ledger_mutation_discipline (cfg : BotConfig) (st : BotState) (o : CycleOracle) :
    (o.claimOutcome = ClaimOutcome.failed →
      (runCycle cfg st o).state.totalFeesCollected = st.totalFeesCollected ∧
      (runCycle cfg st o).state.totalBuybacks = st.totalBuybacks ∧
      (runCycle cfg st o).state.totalSolHeld = st.totalSolHeld) ∧
    (cyclePhase st o = Phase.bonding_curve → o.buyCurveOk = false →
      (runCycle cfg st o).state.totalBuybacks = st.totalBuybacks ∧
      (runCycle cfg st o).state.totalSolHeld = st.totalSolHeld) ∧
    (¬ claimHappened cfg o →
      (runCycle cfg st o).state.totalFeesCollected = st.totalFeesCollected) ∧
    (claimHappened cfg o → cyclePhase st o = Phase.pumpswap →
      (runCycle cfg st o).state.totalBuybacks =
        st.totalBuybacks + buybackAmountOf cfg (harvestedSOL o)) := by
  refine ⟨fun h => ?_, fun hph hbc => ?_, fun h => ?_, fun hc hph => ?_⟩
  · have hnc : ¬ claimHappened cfg o := fun hcl => hcl.2 h
    rw [runCycle_state]
    refine ⟨?_, ?_, ?_⟩
    · rw [cycleStep_fees, if_neg hnc, add_zero]
    · rw [cycleStep_buybacks, if_neg (fun hb => hnc hb.1), add_zero]
    · rw [cycleStep_solHeld, if_neg (fun hd => hnc hd.1), if_neg (fun hh => hnc hh.1),
        add_zero]
  · rw [runCycle_state]
    have hb : ¬ buybackRecorded cfg st o := by
      rintro ⟨-, ⟨-, hok⟩ | hp⟩
      · rw [hbc] at hok
        exact Bool.false_ne_true hok
      · rw [hph] at hp
        exact Phase.noConfusion hp
    have hd : ¬ depositPathTaken cfg st o := by
      rintro ⟨-, hp, -⟩
      rw [hph] at hp
      exact Phase.noConfusion hp
    have hh : ¬ holdRecorded cfg st o := by
      rintro ⟨-, ⟨-, hok⟩ | ⟨hp, -⟩⟩
      · rw [hbc] at hok
        exact Bool.false_ne_true hok
      · rw [hph] at hp
        exact Phase.noConfusion hp
    exact ⟨by rw [cycleStep_buybacks, if_neg hb, add_zero],
      by rw [cycleStep_solHeld, if_neg hd, if_neg hh, add_zero]⟩
  · rw [runCycle_state, cycleStep_fees, if_neg h, add_zero]
  · rw [runCycle_state, cycleStep_buybacks, if_pos ⟨hc, Or.inr hph⟩]

/-- Witness for C2's amended theorem at a concrete claim-failure input. -/
theorem c2_ledger_mutation_discipline_witness :
    (runCycle c2Config c2State c2wOracle).state.totalFeesCollected =
      c2State.totalFeesCollected :=
  ((c2_ledger_mutation_discipline c2Config c2State c2wOracle).1 rfl).1

def c3Config : BotConfig :=
  { tokenMint := "MINT", minFeeThreshold := 15/1000, buybackPercentage := 50,
    checkInterval := 60000 }

def c3Oracle1 : CycleOracle :=
  { probe := some { complete := true }, poolLookup := some true, feeBalance := some 0,
    claimOutcome := ClaimOutcome.claimed, buyCurveOk := true, buyAmmOk := true,
    depositOk := true, tokenBalance := some 0 }

def c3Oracle2 : CycleOracle := { c3Oracle1 with probe := some { complete := false } }

def c3State1 : BotState := (runCycle c3Config (LiquidBot.mkState c3Config) c3Oracle1).state

/-- Claim C3, counterexample: after a cycle that observed `pumpswap` and
confirmed the pool, a later cycle whose bonding-curve probe returns a
not-complete curve reports `bonding_curve` again: the detector regresses. -/
theorem c3_counterexample_phase_regression :
    c3State1.currentPhase = Phase.pumpswap ∧ c3State1.pumpSwapPool = true ∧
    (runCycle c3Config c3State1 c3Oracle2).state.currentPhase = Phase.bonding_curve := by
  have h2 : c3State1.pumpSwapPool = true := by
    unfold c3State1
    rw [runCycle_state, cycleStep_pool]
    simp [cyclePool, checkTokenPhase, detectPumpSwapPool, c3Oracle1, LiquidBot.mkState,
      c3Config]
  refine ⟨?_, h2, ?_⟩
  · unfold c3State1
    rw [runCycle_state, cycleStep_phase]
    simp [cyclePhase, checkTokenPhase, detectPumpSwapPool, c3Oracle1, LiquidBot.mkState,
      c3Config]
  · rw [runCycle_state, cycleStep_phase]
    simp [cyclePhase, checkTokenPhase, c3Oracle2, c3Oracle1]

/-- Claim C3, amended: once the pool is cached, the cache is never cleared
and a later cycle reports `bonding_curve` exactly when its probe succeeds
with a not-complete curve; whenever the probe fails, the cached pool forces
`pumpswap` (never `unknown` and never `bonding_curve`). -/
theorem c3_pool_cache_monotone_regression_characterized (cfg : BotConfig) (st : BotState)
    (o : CycleOracle) (h : st.pumpSwapPool = true) :
    (runCycle cfg st o).state.pumpSwapPool = true ∧
    ((runCycle cfg st o).state.currentPhase = Phase.bonding_curve ↔
      o.probe = some { complete := false }) ∧
    (o.probe = none → (runCycle cfg st o).state.currentPhase = Phase.pumpswap) := by
  rw [runCycle_state]
  refine ⟨by rw [cycleStep_pool]; exact cyclePool_mono st o h, ?_, fun hn => ?_⟩
  · rw [cycleStep_phase]
    unfold cyclePhase checkTokenPhase detectPumpSwapPool
    rcases ho : o.probe with _ | ⟨⟨b⟩⟩
    · rcases o.poolLookup with _ | (_ | _) <;> simp [h]
    · cases b <;> rcases o.poolLookup with _ | (_ | _) <;> simp [h]
  · rw [cycleStep_phase]
    unfold cyclePhase checkTokenPhase detectPumpSwapPool
    rw [hn]
    rcases o.poolLookup with _ | (_ | _) <;> simp [h]

def c3wState : BotState := { LiquidBot.mkState c3Config with pumpSwapPool := true }

def c3wOracle : CycleOracle := { c3Oracle1 with probe := none }

/-- Witness for C3's amended theorem at a concrete pool-cached state with a
failing probe. -/
theorem c3_pool_cache_monotone_regression_witness :
    (runCycle c3Config c3wState c3wOracle).state.pumpSwapPool = true ∧
    (runCycle c3Config c3wState c3wOracle).state.currentPhase = Phase.pumpswap :=
  ⟨(c3_pool_cache_monotone_regression_characterized c3Config c3wState c3wOracle rfl).1,
   (c3_pool_cache_monotone_regression_characterized c3Config c3wState c3wOracle rfl).2.2 rfl⟩

end LiquidProtocol

namespace LiquidProtocol

/-- Claim C4: under the documented config invariant (buyback percentage at
least 0), `totalFeesCollected` and `totalBuybacks` are non-decreasing over
any sequence of cycles, and `totalFeesCollected` grows by exactly the
harvested amount when the claim call completes without error (and by zero
otherwise). -/
theorem c4_accumulators_monotone_and_exact_increment (cfg : BotConfig)
    (hp : 0 ≤ cfg.buybackPercentage) :
    (∀ st os, st.totalFeesCollected ≤ (runCycles cfg st os).totalFeesCollected ∧
              st.totalBuybacks ≤ (runCycles cfg st os).totalBuybacks) ∧
    ∀ st o, (runCycle cfg st o).state.totalFeesCollected =
        st.totalFeesCollected + (if claimHappened cfg o then harvestedSOL o else 0) :=
  ⟨fun st os => ⟨runCycles_fees_mono cfg st os, runCycles_buybacks_mono cfg hp st os⟩,
   fun st o => by rw [runCycle_state]; exact cycleStep_fees cfg st o⟩

def c4Config : BotConfig :=
  { tokenMint := "MINT", minFeeThreshold := 15/1000, buybackPercentage := 50,
    checkInterval := 60000 }

def c4Oracle : CycleOracle :=
  { probe := some { complete := false }, poolLookup := some false,
    feeBalance := some 20000000, claimOutcome := ClaimOutcome.claimed, buyCurveOk := true,
    buyAmmOk := true, depositOk := true, tokenBalance := some 0 }

/-- Witness for C4 at a concrete successful 0.02 SOL harvest. -/
theorem c4_accumulators_witness :
    (runCycle c4Config (LiquidBot.mkState c4Config) c4Oracle).state.totalFeesCollected =
      1/50 := by
  have h := (c4_accumulators_monotone_and_exact_increment c4Config (by decide)).2
    (LiquidBot.mkState c4Config) c4Oracle
  rw [h, if_pos ?_]
  · unfold harvestedSOL lamportsToSol getCreatorFeeBalance c4Oracle LiquidBot.mkState
    norm_num
  · refine ⟨?_, by simp [c4Oracle]⟩
    unfold harvestedSOL lamportsToSol getCreatorFeeBalance c4Config c4Oracle
    norm_num

def c5Config : BotConfig :=
  { tokenMint := "MINT", minFeeThreshold := 15/1000, buybackPercentage := 50,
    checkInterval := 60000 }

def c5State : BotState := LiquidBot.mkState c5Config

def c5Oracle : CycleOracle :=
  { probe := none, poolLookup := some false, feeBalance := some 20000000,
    claimOutcome := ClaimOutcome.claimed, buyCurveOk := true, buyAmmOk := true,
    depositOk := true, tokenBalance := some 0 }

/-- Claim C5, counterexample: the claim says every harvest adds the hold
amount to the held reserve, but in the `unknown` phase a successful claim
of 0.02 SOL (hold amount 0.01) leaves `totalSolHeld` at 0. -/
theorem c5_counterexample_unknown_phase_drops_hold :
    cyclePhase c5State c5Oracle = Phase.unknown ∧
    claimHappened c5Config c5Oracle ∧
    c5State.totalSolHeld + holdAmountOf c5Config (harvestedSOL c5Oracle) = 1/100 ∧
    (runCycle c5Config c5State c5Oracle).state.totalFeesCollected =
      c5State.totalFeesCollected + harvestedSOL c5Oracle ∧
    (runCycle c5Config c5State c5Oracle).state.totalSolHeld = 0 := by
  have hph : cyclePhase c5State c5Oracle = Phase.unknown := by
    simp [cyclePhase, checkTokenPhase, detectPumpSwapPool, c5State, c5Oracle,
      LiquidBot.mkState]
  have hc : claimHappened c5Config c5Oracle := by
    refine ⟨?_, by simp [c5Oracle]⟩
    unfold harvestedSOL lamportsToSol getCreatorFeeBalance c5Config c5Oracle
    norm_num
  refine ⟨hph, hc, ?_, ?_, ?_⟩
  · unfold holdAmountOf buybackAmountOf harvestedSOL lamportsToSol getCreatorFeeBalance
      c5Config c5State c5Oracle LiquidBot.mkState
    norm_num
  · rw [runCycle_state, cycleStep_fees, if_pos hc]
  · have hd : ¬ depositPathTaken c5Config c5State c5Oracle := by
      rintro ⟨-, hp, -⟩
      rw [hph] at hp
      exact Phase.noConfusion hp
    have hh : ¬ holdRecorded c5Config c5State c5Oracle := by
      rintro ⟨-, ⟨hp, -⟩ | ⟨hp, -⟩⟩ <;> rw [hph] at hp <;> exact Phase.noConfusion hp
    rw [runCycle_state, cycleStep_solHeld, if_neg hd, if_neg hh, add_zero]
    simp [c5State, LiquidBot.mkState]

/-- Claim C5, amended: the split `buybackAmount = A * pct / 100`,
`holdAmount = A - buybackAmount` satisfies `buyback + hold = A` exactly,
and every successful claim adds `A` to `totalFeesCollected`; but the hold
amount reaches `totalSolHeld` only in the bonding-curve phase (after a
successful buy) and in the pumpswap phase without a detected pool — in the
`unknown` phase it is dropped. -/
theorem c5_split_exact_reserve_phase_dependent (cfg : BotConfig) (st : BotState)
    (o : CycleOracle) :
    (∀ A : ℚ, buybackAmountOf cfg A + holdAmountOf cfg A = A) ∧
    (claimHappened cfg o →
      (runCycle cfg st o).state.totalFeesCollected = st.totalFeesCollected + harvestedSOL o) ∧
    (claimHappened cfg o → cyclePhase st o = Phase.bonding_curve → o.buyCurveOk = true →
      (runCycle cfg st o).state.totalSolHeld =
        st.totalSolHeld + holdAmountOf cfg (harvestedSOL o)) ∧
    (claimHappened cfg o → cyclePhase st o = Phase.pumpswap → cyclePool st o = false →
      (runCycle cfg st o).state.totalSolHeld =
        st.totalSolHeld + holdAmountOf cfg (harvestedSOL o)) ∧
    (claimHappened cfg o → cyclePhase st o = Phase.unknown →
      (runCycle cfg st o).state.totalSolHeld = st.totalSolHeld) := by
  refine ⟨fun A => ?_, fun hc => ?_, fun hc hph hbc => ?_, fun hc hph hpl => ?_,
    fun hc hph => ?_⟩
  · unfold buybackAmountOf holdAmountOf buybackAmountOf
    ring
  · rw [runCycle_state, cycleStep_fees, if_pos hc]
  · have hd : ¬ depositPathTaken cfg st o := by
      rintro ⟨-, hp, -⟩
      rw [hph] at hp
      exact Phase.noConfusion hp
    rw [runCycle_state, cycleStep_solHeld, if_neg hd, if_pos ⟨hc, Or.inl ⟨hph, hbc⟩⟩]
  · have hd : ¬ depositPathTaken cfg st o := by
      rintro ⟨-, -, hp⟩
      rw [hpl] at hp
      exact Bool.false_ne_true hp
    rw [runCycle_state, cycleStep_solHeld, if_neg hd, if_pos ⟨hc, Or.inr ⟨hph, hpl⟩⟩]
  · have hd : ¬ depositPathTaken cfg st o := by
      rintro ⟨-, hp, -⟩
      rw [hph] at hp
      exact Phase.noConfusion hp
    have hh : ¬ holdRecorded cfg st o := by
      rintro ⟨-, ⟨hp, -⟩ | ⟨hp, -⟩⟩ <;> rw [hph] at hp <;> exact Phase.noConfusion hp
    rw [runCycle_state, cycleStep_solHeld, if_neg hd, if_neg hh, add_zero]

def c5wConfig : BotConfig :=
  { tokenMint := "MINT", minFeeThreshold := 15/1000, buybackPercentage := 50,
    checkInterval := 60000 }

def c5wState : BotState := LiquidBot.mkState c5wConfig

def c5wOracle : CycleOracle :=
  { probe := some { complete := false }, poolLookup := some false,
    feeBalance := some 20000000, claimOutcome := ClaimOutcome.claimed, buyCurveOk := true,
    buyAmmOk := true, depositOk := true, tokenBalance := some 0 }

/-- Witness for C5's amended theorem at a concrete bonding-curve harvest. -/
theorem c5_split_exact_reserve_witness :
    buybackAmountOf c5wConfig (harvestedSOL c5wOracle) +
      holdAmountOf c5wConfig (harvestedSOL c5wOracle) = harvestedSOL c5wOracle ∧
    (runCycle c5wConfig c5wState c5wOracle).state.totalSolHeld =
      c5wState.totalSolHeld + holdAmountOf c5wConfig (harvestedSOL c5wOracle) := by
  have hc : claimHappened c5wConfig c5wOracle := by
    refine ⟨?_, by simp [c5wOracle]⟩
    unfold harvestedSOL lamportsToSol getCreatorFeeBalance c5wConfig c5wOracle
    norm_num
  have hph : cyclePhase c5wState c5wOracle = Phase.bonding_curve := by
    simp [cyclePhase, checkTokenPhase, c5wState, c5wOracle, LiquidBot.mkState]
  exact ⟨(c5_split_exact_reserve_phase_dependent c5wConfig c5wState c5wOracle).1 _,
    (c5_split_exact_reserve_phase_dependent c5wConfig c5wState c5wOracle).2.2.1 hc hph rfl⟩

end LiquidProtocol

namespace LiquidProtocol

def c6Config : BotConfig :=
  { tokenMint := "MINT", minFeeThreshold := 15/1000, buybackPercentage := 50,
    checkInterval := 60000 }

def c6State : BotState := LiquidBot.mkState c6Config

def c6Oracle : CycleOracle :=
  { probe := none, poolLookup := some false, feeBalance := some 30000000,
    claimOutcome := ClaimOutcome.claimed, buyCurveOk := true, buyAmmOk := true,
    depositOk := true, tokenBalance := some 0 }

/-- Claim C6, counterexample: in an `unknown`-phase cycle with a successful
claim of 0.03 SOL, no buy or deposit is attempted (consistent with the
claim), but the hold amount 0.015 is NOT accumulated into `totalSolHeld`,
which stays 0 — contradicting the claim's accumulation half. -/
theorem c6_counterexample_hold_not_accumulated :
    cyclePhase c6State c6Oracle = Phase.unknown ∧
    claimHappened c6Config c6Oracle ∧
    (∀ a ∈ (runCycle c6Config c6State c6Oracle).actions, a.isBuyOrDeposit = false) ∧
    holdAmountOf c6Config (harvestedSOL c6Oracle) = 3/200 ∧
    (runCycle c6Config c6State c6Oracle).state.totalSolHeld = 0 ∧
    c6State.totalSolHeld + holdAmountOf c6Config (harvestedSOL c6Oracle) = 3/200 := by
  have hph : cyclePhase c6State c6Oracle = Phase.unknown := by
    simp [cyclePhase, checkTokenPhase, detectPumpSwapPool, c6State, c6Oracle,
      LiquidBot.mkState]
  have hthr : c6Config.minFeeThreshold ≤ harvestedSOL c6Oracle := by
    unfold harvestedSOL lamportsToSol getCreatorFeeBalance c6Config c6Oracle
    norm_num
  have hc : claimHappened c6Config c6Oracle := ⟨hthr, by simp [c6Oracle]⟩
  have hhold : holdAmountOf c6Config (harvestedSOL c6Oracle) = 3/200 := by
    unfold holdAmountOf buybackAmountOf harvestedSOL lamportsToSol getCreatorFeeBalance
      c6Config c6Oracle
    norm_num
  refine ⟨hph, hc, ?_, hhold, ?_, ?_⟩
  · intro a ha
    rw [runCycle_actions] at ha
    unfold cycleActions phaseActions at ha
    rw [if_pos hthr, hph] at ha
    simp [c6Oracle] at ha
    rw [ha]
    rfl
  · have hd : ¬ depositPathTaken c6Config c6State c6Oracle := by
      rintro ⟨-, hp, -⟩
      rw [hph] at hp
      exact Phase.noConfusion hp
    have hh : ¬ holdRecorded c6Config c6State c6Oracle := by
      rintro ⟨-, ⟨hp, -⟩ | ⟨hp, -⟩⟩ <;> rw [hph] at hp <;> exact Phase.noConfusion hp
    rw [runCycle_state, cycleStep_solHeld, if_neg hd, if_neg hh, add_zero]
    simp [c6State, LiquidBot.mkState]
  · rw [hhold]
    simp [c6State, LiquidBot.mkState]

/-- Claim C6, amended: in an `unknown`-phase cycle with a successful claim,
no buy or deposit is attempted and `totalSolHeld` and `totalBuybacks` are
unchanged; only `totalFeesCollected` grows by the harvested amount.  The
hold amount is not tracked anywhere. -/
theorem c6_unknown_phase_no_action_and_no_reserve_accrual (cfg : BotConfig) (st : BotState)
    (o : CycleOracle) (hph : cyclePhase st o = Phase.unknown) (hc : claimHappened cfg o) :
    (∀ a ∈ (runCycle cfg st o).actions, a.isBuyOrDeposit = false) ∧
    (runCycle cfg st o).state.totalSolHeld = st.totalSolHeld ∧
    (runCycle cfg st o).state.totalBuybacks = st.totalBuybacks ∧
    (runCycle cfg st o).state.totalFeesCollected = st.totalFeesCollected + harvestedSOL o := by
  have hd : ¬ depositPathTaken cfg st o := by
    rintro ⟨-, hp, -⟩
    rw [hph] at hp
    exact Phase.noConfusion hp
  have hh : ¬ holdRecorded cfg st o := by
    rintro ⟨-, ⟨hp, -⟩ | ⟨hp, -⟩⟩ <;> rw [hph] at hp <;> exact Phase.noConfusion hp
  have hb : ¬ buybackRecorded cfg st o := by
    rintro ⟨-, ⟨hp, -⟩ | hp⟩ <;> rw [hph] at hp <;> exact Phase.noConfusion hp
  refine ⟨?_, ?_, ?_, ?_⟩
  · intro a ha
    rw [runCycle_actions] at ha
    unfold cycleActions phaseActions at ha
    rw [if_pos hc.1, hph] at ha
    rcases hco : o.claimOutcome
    · rw [hco] at ha
      simp at ha
      rw [ha]
      rfl
    · rw [hco] at ha
      simp at ha
    · exact absurd hco hc.2
  · rw [runCycle_state, cycleStep_solHeld, if_neg hd, if_neg hh, add_zero]
  · rw [runCycle_state, cycleStep_buybacks, if_neg hb, add_zero]
  · rw [runCycle_state, cycleStep_fees, if_pos hc]

def c6wOracle : CycleOracle := { c6Oracle with feeBalance := some 20000000 }

/-- Witness for C6's amended theorem at a concrete unknown-phase harvest. -/
theorem c6_unknown_phase_witness :
    (runCycle c6Config c6State c6wOracle).state.totalSolHeld = c6State.totalSolHeld ∧
    (runCycle c6Config c6State c6wOracle).state.totalFeesCollected =
      c6State.totalFeesCollected + harvestedSOL c6wOracle := by
  have hph : cyclePhase c6State c6wOracle = Phase.unknown := by
    simp [cyclePhase, checkTokenPhase, detectPumpSwapPool, c6State, c6wOracle, c6Oracle,
      LiquidBot.mkState]
  have hc : claimHappened c6Config c6wOracle := by
    refine ⟨?_, by simp [c6wOracle, c6Oracle]⟩
    unfold harvestedSOL lamportsToSol getCreatorFeeBalance c6Config c6wOracle c6Oracle
    norm_num
  exact ⟨(c6_unknown_phase_no_action_and_no_reserve_accrual c6Config c6State c6wOracle
      hph hc).2.1,
    (c6_unknown_phase_no_action_and_no_reserve_accrual c6Config c6State c6wOracle
      hph hc).2.2.2⟩

end LiquidProtocol

namespace LiquidProtocol

def c7Config : BotConfig :=
  { tokenMint := "MINT", minFeeThreshold := 15/1000, buybackPercentage := 50,
    checkInterval := 60000 }

def c7State : BotState := LiquidBot.mkState c7Config

def c7Oracle : CycleOracle :=
  { probe := some { complete := true }, poolLookup := some false, feeBalance := some 0,
    claimOutcome := ClaimOutcome.claimed, buyCurveOk := true, buyAmmOk := true,
    depositOk := true, tokenBalance := some 0 }

/-- Claim C7, counterexample: with a successful probe reporting a completed
curve and the derived pool account missing, `checkTokenPhase` still returns
`pumpswap` (with the pool cache left unset), not `unknown` as claimed. -/
theorem c7_counterexample_missing_pool_still_reports_pumpswap :
    (checkTokenPhase false (some { complete := true }) (some false)).phase =
      Phase.pumpswap ∧
    (checkTokenPhase false (some { complete := true }) (some false)).pool = false ∧
    (runCycle c7Config c7State c7Oracle).state.currentPhase = Phase.pumpswap ∧
    Phase.pumpswap ≠ Phase.unknown := by
  refine ⟨by simp [checkTokenPhase, detectPumpSwapPool],
    by simp [checkTokenPhase, detectPumpSwapPool], ?_, by simp⟩
  rw [runCycle_state, cycleStep_phase]
  simp [cyclePhase, checkTokenPhase, detectPumpSwapPool, c7State, c7Oracle,
    LiquidBot.mkState]

/-- Claim C7, amended: when the probe succeeds and the curve is complete,
the detector returns `pumpswap` unconditionally; `unknown` arises exactly
when the probe fails and no pool is cached or found. -/
theorem c7_unknown_only_on_probe_failure (pool : Bool) (probe : Option CurveState)
    (lookup : Option Bool) :
    (∀ bc : CurveState, probe = some bc → bc.complete = true →
      (checkTokenPhase pool probe lookup).phase = Phase.pumpswap) ∧
    ((checkTokenPhase pool probe lookup).phase = Phase.unknown ↔
      probe = none ∧ (checkTokenPhase pool probe lookup).pool = false) := by
  constructor
  · rintro ⟨b⟩ hp hb
    rw [hp]
    subst hb
    simp [checkTokenPhase]
  · unfold checkTokenPhase detectPumpSwapPool
    rcases probe with _ | ⟨⟨b⟩⟩ <;> rcases lookup with _ | (_ | _) <;> cases pool <;>
      (try cases b) <;> simp

/-- Witness for C7's amended theorem at a concrete complete-curve probe. -/
theorem c7_unknown_only_on_probe_failure_witness :
    (checkTokenPhase false (some { complete := true }) (some true)).phase =
      Phase.pumpswap :=
  (c7_unknown_only_on_probe_failure false (some { complete := true }) (some true)).1
    { complete := true } rfl rfl

/-- Claim C8: when the fee claim fails, `totalFeesCollected`,
`totalBuybacks` and `totalSolHeld` are unchanged, no buy or deposit is
attempted, the claim error and a cycle error are logged, and the loop flags
(`isRunning`, scheduled interval) are untouched, so the next tick still
fires. -/
theorem c8_claim_failure_aborts_cycle_safely (cfg : BotConfig) (st : BotState)
    (o : CycleOracle) (h1 : cfg.minFeeThreshold ≤ harvestedSOL o)
    (h2 : o.claimOutcome = ClaimOutcome.failed) :
    (runCycle cfg st o).state.totalFeesCollected = st.totalFeesCollected ∧
    (runCycle cfg st o).state.totalBuybacks = st.totalBuybacks ∧
    (runCycle cfg st o).state.totalSolHeld = st.totalSolHeld ∧
    (∀ a ∈ (runCycle cfg st o).actions, a.isBuyOrDeposit = false) ∧
    (LogLevel.error, Msg.claimFailed) ∈ (runCycle cfg st o).logs ∧
    (LogLevel.error, Msg.cycleError) ∈ (runCycle cfg st o).logs ∧
    (runCycle cfg st o).state.isRunning = st.isRunning ∧
    (runCycle cfg st o).state.intervalSet = st.intervalSet := by
  have hnc : ¬ claimHappened cfg o := fun hcl => hcl.2 h2
  have hlog := claimFailure_logged cfg st o h1 h2
  refine ⟨?_, ?_, ?_, ?_, hlog.1, hlog.2, ?_, ?_⟩
  · rw [runCycle_state, cycleStep_fees, if_neg hnc, add_zero]
  · rw [runCycle_state, cycleStep_buybacks, if_neg (fun hb => hnc hb.1), add_zero]
  · rw [runCycle_state, cycleStep_solHeld, if_neg (fun hd => hnc hd.1),
      if_neg (fun hh => hnc hh.1), add_zero]
  · intro a ha
    rw [runCycle_actions] at ha
    unfold cycleActions at ha
    rw [if_pos h1, h2] at ha
    simp at ha
    rw [ha]
    rfl
  · rw [runCycle_state]
    exact (cycleStep_frame cfg st o).1
  · rw [runCycle_state]
    exact (cycleStep_frame cfg st o).2.1

def c8Config : BotConfig :=
  { tokenMint := "MINT", minFeeThreshold := 15/1000, buybackPercentage := 50,
    checkInterval := 60000 }

def c8State : BotState := { LiquidBot.mkState c8Config with isRunning := true, intervalSet := true }

def c8Oracle : CycleOracle :=
  { probe := some { complete := false }, poolLookup := some false,
    feeBalance := some 20000000, claimOutcome := ClaimOutcome.failed, buyCurveOk := true,
    buyAmmOk := true, depositOk := true, tokenBalance := some 0 }

/-- Witness for C8 at a concrete failing claim above threshold. -/
theorem c8_claim_failure_witness :
    (runCycle c8Config c8State c8Oracle).state.totalFeesCollected =
      c8State.totalFeesCollected ∧
    (LogLevel.error, Msg.cycleError) ∈ (runCycle c8Config c8State c8Oracle).logs ∧
    (runCycle c8Config c8State c8Oracle).state.isRunning = c8State.isRunning := by
  have h1 : c8Config.minFeeThreshold ≤ harvestedSOL c8Oracle := by
    unfold harvestedSOL lamportsToSol getCreatorFeeBalance c8Config c8Oracle
    norm_num
  exact ⟨(c8_claim_failure_aborts_cycle_safely c8Config c8State c8Oracle h1 rfl).1,
    (c8_claim_failure_aborts_cycle_safely c8Config c8State c8Oracle h1 rfl).2.2.2.2.2.1,
    (c8_claim_failure_aborts_cycle_safely c8Config c8State c8Oracle h1 rfl).2.2.2.2.2.2.1⟩

end LiquidProtocol

namespace LiquidProtocol

/-- Claim C9: when the read fee balance is strictly below the threshold, no
transaction at all is submitted, every ledger field is unchanged, the
informational below-threshold event is logged, and the cycle still
refreshes the token balance and publishes the status snapshot. -/
theorem c9_below_threshold_cycle_is_pure_refresh (cfg : BotConfig) (st : BotState)
    (o : CycleOracle) (h : harvestedSOL o < cfg.minFeeThreshold) :
    (runCycle cfg st o).actions = [] ∧
    (runCycle cfg st o).state.totalFeesCollected = st.totalFeesCollected ∧
    (runCycle cfg st o).state.totalBuybacks = st.totalBuybacks ∧
    (runCycle cfg st o).state.totalSolHeld = st.totalSolHeld ∧
    (LogLevel.info, Msg.belowThreshold) ∈ (runCycle cfg st o).logs ∧
    (runCycle cfg st o).state.tokensHeld = o.tokenBalance.getD 0 ∧
    (runCycle cfg st o).statusPublished = true := by
  have h' : ¬ cfg.minFeeThreshold ≤ harvestedSOL o := not_le.mpr h
  have hnc : ¬ claimHappened cfg o := fun hcl => h' hcl.1
  refine ⟨?_, ?_, ?_, ?_, belowThreshold_logged cfg st o h, ?_, ?_⟩
  · rw [runCycle_actions]
    unfold cycleActions
    rw [if_neg h']
  · rw [runCycle_state, cycleStep_fees, if_neg hnc, add_zero]
  · rw [runCycle_state, cycleStep_buybacks, if_neg (fun hb => hnc hb.1), add_zero]
  · rw [runCycle_state, cycleStep_solHeld, if_neg (fun hd => hnc hd.1),
      if_neg (fun hh => hnc hh.1), add_zero]
  · rw [runCycle_state]
    unfold cycleStep
    rw [if_neg h']
  · rw [runCycle_published]
    unfold cyclePublished
    rw [if_neg h']

def c9Config : BotConfig :=
  { tokenMint := "MINT", minFeeThreshold := 15/1000, buybackPercentage := 50,
    checkInterval := 60000 }

def c9State : BotState := LiquidBot.mkState c9Config

def c9Oracle : CycleOracle :=
  { probe := some { complete := false }, poolLookup := some false,
    feeBalance := some 10000000, claimOutcome := ClaimOutcome.claimed, buyCurveOk := true,
    buyAmmOk := true, depositOk := true, tokenBalance := some 7 }

/-- Witness for C9 at a 0.01 SOL balance against a 0.015 threshold. -/
theorem c9_below_threshold_witness :
    (runCycle c9Config c9State c9Oracle).actions = [] ∧
    (runCycle c9Config c9State c9Oracle).state.totalFeesCollected =
      c9State.totalFeesCollected ∧
    (LogLevel.info, Msg.belowThreshold) ∈ (runCycle c9Config c9State c9Oracle).logs ∧
    (runCycle c9Config c9State c9Oracle).state.tokensHeld = 7 ∧
    (runCycle c9Config c9State c9Oracle).statusPublished = true := by
  have h : harvestedSOL c9Oracle < c9Config.minFeeThreshold := by
    unfold harvestedSOL lamportsToSol getCreatorFeeBalance c9Config c9Oracle
    norm_num
  have hmain := c9_below_threshold_cycle_is_pure_refresh c9Config c9State c9Oracle h
  exact ⟨hmain.1, hmain.2.1, hmain.2.2.2.2.1, by rw [hmain.2.2.2.2.2.1]; rfl,
    hmain.2.2.2.2.2.2⟩

lemma depositAttempted_iff (cfg : BotConfig) (st : BotState) (o : CycleOracle) :
    depositAttempted (runCycle cfg st o) = true ↔ depositPathTaken cfg st o := by
  rw [depositAttempted, runCycle_actions]
  unfold cycleActions phaseActions depositPathTaken claimHappened
  by_cases h1 : cfg.minFeeThreshold ≤ harvestedSOL o
  case pos =>
    rw [if_pos h1]
    rcases hco : o.claimOutcome <;>
      simp only [hco] <;>
      rcases hph : cyclePhase st o <;>
      simp [h1, hph, Action.isDeposit] <;>
      (constructor
       · rintro ⟨x, ⟨hpool, -⟩, -⟩
         exact hpool
       · intro hpool
         exact ⟨Action.deposit (st.totalSolHeld + holdAmountOf cfg (harvestedSOL o))
           o.depositOk, ⟨hpool, Or.inr rfl⟩, rfl⟩)
  case neg =>
    rw [if_neg h1]
    simp [h1]

end LiquidProtocol

namespace LiquidProtocol

def c10Config : BotConfig :=
  { tokenMint := "MINT", minFeeThreshold := 15/1000, buybackPercentage := 150,
    checkInterval := 60000 }

def c10Oracle : CycleOracle :=
  { probe := some { complete := false }, poolLookup := some false,
    feeBalance := some 20000000, claimOutcome := ClaimOutcome.claimed, buyCurveOk := true,
    buyAmmOk := true, depositOk := true, tokenBalance := some 0 }

/-- Claim C10: the constructor performs no validation of
`buybackPercentage`.  For configs with the percentage in 0..100 the
per-harvest hold amount is non-negative and `totalSolHeld` never decreases
in a cycle that attempts no deposit; with percentage 150 a successful
bonding-curve harvest adds a negative hold amount, strictly decreasing
`totalSolHeld` below zero. -/
theorem c10_unvalidated_buyback_percentage :
    (∀ (cfg : BotConfig) (st : BotState) (o : CycleOracle),
      0 ≤ cfg.buybackPercentage → cfg.buybackPercentage ≤ 100 →
      0 ≤ holdAmountOf cfg (harvestedSOL o) ∧
      (depositAttempted (runCycle cfg st o) = false →
        st.totalSolHeld ≤ (runCycle cfg st o).state.totalSolHeld)) ∧
    ∃ (cfg : BotConfig) (o : CycleOracle), 100 < cfg.buybackPercentage ∧
      claimHappened cfg o ∧
      cyclePhase (LiquidBot.mkState cfg) o = Phase.bonding_curve ∧ o.buyCurveOk = true ∧
      (runCycle cfg (LiquidBot.mkState cfg) o).state.totalSolHeld <
        (LiquidBot.mkState cfg).totalSolHeld ∧
      (runCycle cfg (LiquidBot.mkState cfg) o).state.totalSolHeld < 0 := by
  constructor
  · intro cfg st o hp0 hp100
    have hhold := holdAmountOf_nonneg cfg (harvestedSOL o) hp100 (harvestedSOL_nonneg o)
    refine ⟨hhold, fun hda => ?_⟩
    have hnd : ¬ depositPathTaken cfg st o := fun hd => by
      rw [(depositAttempted_iff cfg st o).mpr hd] at hda
      exact Bool.noConfusion hda
    rw [runCycle_state, cycleStep_solHeld, if_neg hnd]
    split
    · linarith
    · linarith
  · have hc : claimHappened c10Config c10Oracle := by
      refine ⟨?_, by simp [c10Oracle]⟩
      unfold harvestedSOL lamportsToSol getCreatorFeeBalance c10Config c10Oracle
      norm_num
    have hph : cyclePhase (LiquidBot.mkState c10Config) c10Oracle =
        Phase.bonding_curve := by
      simp [cyclePhase, checkTokenPhase, c10Oracle, LiquidBot.mkState]
    have hd : ¬ depositPathTaken c10Config (LiquidBot.mkState c10Config) c10Oracle := by
      rintro ⟨-, hp, -⟩
      rw [hph] at hp
      exact Phase.noConfusion hp
    have hres : (runCycle c10Config (LiquidBot.mkState c10Config)
        c10Oracle).state.totalSolHeld = -1/100 := by
      rw [runCycle_state, cycleStep_solHeld, if_neg hd,
        if_pos ⟨hc, Or.inl ⟨hph, rfl⟩⟩]
      unfold holdAmountOf buybackAmountOf harvestedSOL lamportsToSol getCreatorFeeBalance
        c10Config c10Oracle LiquidBot.mkState
      norm_num
    refine ⟨c10Config, c10Oracle, by decide, hc, hph, rfl, ?_, ?_⟩
    · rw [hres]
      norm_num [LiquidBot.mkState]
    · rw [hres]
      norm_num

end LiquidProtocol

namespace LiquidProtocol

def c10wConfig : BotConfig :=
  { tokenMint := "MINT", minFeeThreshold := 15/1000, buybackPercentage := 50,
    checkInterval := 60000 }

def c10wState : BotState := LiquidBot.mkState c10wConfig

def c10wOracle : CycleOracle :=
  { probe := some { complete := false }, poolLookup := some false,
    feeBalance := some 20000000, claimOutcome := ClaimOutcome.claimed, buyCurveOk := true,
    buyAmmOk := true, depositOk := true, tokenBalance := some 0 }

/-- Witness for C10's universal half at a concrete 50-percent config. -/
theorem c10_unvalidated_buyback_percentage_witness :
    0 ≤ holdAmountOf c10wConfig (harvestedSOL c10wOracle) ∧
    c10wState.totalSolHeld ≤
      (runCycle c10wConfig c10wState c10wOracle).state.totalSolHeld := by
  have h := c10_unvalidated_buyback_percentage.1 c10wConfig c10wState c10wOracle
    (by decide) (by decide)
  refine ⟨h.1, h.2 ?_⟩
  have hph : cyclePhase c10wState c10wOracle = Phase.bonding_curve := by
    simp [cyclePhase, checkTokenPhase, c10wState, c10wOracle, LiquidBot.mkState]
  have hthr : c10wConfig.minFeeThreshold ≤ harvestedSOL c10wOracle := by
    unfold harvestedSOL lamportsToSol getCreatorFeeBalance c10wConfig c10wOracle
    norm_num
  rw [depositAttempted, runCycle_actions]
  unfold cycleActions phaseActions
  rw [if_pos hthr, hph]
  simp [c10wOracle, Action.isDeposit]

end LiquidProtocol
